import Mathlib

/-!
Shallow embedding of the WanderGenie travel-assistant frontend and of the
itinerary engine described by its specification.

Conventions of the embedding:
* TypeScript strings are `String`, numbers that the code only ever uses as
  non-negative integers are `Nat`, `undefined`/`null`/`NaN` are `Option`.
* A `fetch` response is modelled by its status code, status text and parsed
  JSON body; `response.ok` is `200 ≤ status < 300` as in the WHATWG spec.
* An `async` function that can `throw` is `Except String α`, the `String`
  being the thrown `Error`'s message.
* The JavaScript runtime's local time zone is taken to be UTC, so the local
  and UTC accessors of `Date` coincide.
-/

namespace WanderGenie

/-- A JavaScript number that may be `NaN` (`none`). All numbers that the
modelled code produces are non-negative integers. -/
abbrev JsNum := Option Nat

/-- `String(v)` for a possibly-`NaN` number: `NaN` prints as `"NaN"`. -/
def jsNumToString : JsNum → String
  | none => "NaN"
  | some n => toString n

/-- `s.padStart(2, "0")`. -/
def padStartTwo (s : String) : String :=
  if s.length < 2 then
    if s.length < 1 then "00" else "0" ++ s
  else s

/-- Helper for `String.prototype.includes`: does `pat` occur in `l`? -/
def charsInclude (pat : List Char) : List Char → Bool
  | [] => pat.isPrefixOf []
  | c :: rest => pat.isPrefixOf (c :: rest) || charsInclude pat rest

/-- `s.includes(pat)`. -/
def jsIncludes (s pat : String) : Bool :=
  charsInclude pat.data s.data

namespace Api

/-! Embedding of the frontend API service
(`src/services/api.ts`, shipped after the GraphDB migration file). -/

/-- `POI` from the API service. `booking_url`, `notes` and `open_hours` are
`string | null` in the interface. -/
structure POI where
  name : String
  lat : JsNum
  lon : JsNum
  tags : List String
  duration_min : Nat
  booking_required : Bool
  booking_url : Option String
  notes : Option String
  open_hours : Option String
  deriving Repr, DecidableEq

/-- `FrontendActivity` from `tripConverter.ts` (declared there; placed here
because backend `Day` payloads may already carry activities). -/
structure FrontendActivity where
  time : String
  name : String
  type : String
  lat : JsNum
  lon : JsNum
  duration_min : Nat
  booking_required : Option Bool
  booking_url : Option String
  notes : Option String
  deriving Repr, DecidableEq

/-- `TimeBlock` from the API service. -/
structure TimeBlock where
  start_time : String
  end_time : String
  poi : POI
  travel_from_previous : Nat
  deriving Repr, DecidableEq

/-- `Day` from the API service. The declared interface has `blocks`, but
`tripConverter.convertDay` defends against runtime payloads where `blocks`
is absent and `activities` is present instead, so the embedding carries
both as optional fields (`none` = absent or null). -/
structure Day where
  date : String
  blocks : Option (List TimeBlock)
  activities : Option (List FrontendActivity)
  deriving Repr, DecidableEq

/-- `BookingLinks` from the API service. -/
structure BookingLinks where
  flights : String
  hotels : String
  deriving Repr, DecidableEq

/-- `TripResponse` from the API service. `days` is `Day[]` in the interface,
but `convertBackendTripToFrontend` guards with `Array.isArray`, so the
embedding allows a non-array runtime value (`none`). `errors?` is optional. -/
structure TripResponse where
  trip_id : String
  status : String
  city : String
  origin : String
  start_date : String
  end_date : String
  days : Option (List Day)
  booking_links : BookingLinks
  errors : Option (List String)
  deriving Repr, DecidableEq

/-- The parsed body of a successful `POST /api/trip`. -/
structure CreateTripBody where
  trip_id : String
  status : String
  deriving Repr, DecidableEq

/-- A `fetch` response carrying a parsed JSON body of type `α`. -/
structure HttpResponse (α : Type) where
  status : Nat
  statusText : String
  body : α
  deriving Repr

/-- `response.ok`: status in the inclusive range 200–299. -/
def HttpResponse.ok (r : HttpResponse α) : Bool :=
  decide (200 ≤ r.status) && decide (r.status < 300)

/-- `createTrip`: resolves with the server-sent body when the response is ok,
otherwise throws `Failed to create trip: <statusText>`. -/
def createTrip (resp : HttpResponse CreateTripBody) : Except String CreateTripBody :=
  if resp.ok then Except.ok resp.body
  else Except.error ("Failed to create trip: " ++ resp.statusText)

/-- `getTrip`: 404 throws `Trip not found`, any other non-ok response throws
`Failed to get trip: <statusText>`, an ok response resolves with its body. -/
def getTrip (resp : HttpResponse TripResponse) : Except String TripResponse :=
  if resp.ok then Except.ok resp.body
  else if resp.status == 404 then Except.error "Trip not found"
  else Except.error ("Failed to get trip: " ++ resp.statusText)

/-- `editTrip`: 404 throws `Trip not found`, 409 throws the busy message,
any other non-ok response throws `Failed to edit trip: <statusText>`. -/
def editTrip (resp : HttpResponse TripResponse) : Except String TripResponse :=
  if resp.ok then Except.ok resp.body
  else if resp.status == 404 then Except.error "Trip not found"
  else if resp.status == 409 then Except.error "Trip is still being generated. Please wait."
  else Except.error ("Failed to edit trip: " ++ resp.statusText)

/-- `trip.errors?.join(', ') || 'Trip generation failed'`: an absent `errors`
gives `undefined` (falsy) and an empty join gives `""` (falsy), both of which
fall back to the default message. -/
def failedMessage : Option (List String) → String
  | none => "Trip generation failed"
  | some es =>
    let joined := String.intercalate ", " es
    if joined == "" then "Trip generation failed" else joined

/-- The loop body of `pollTripUntilComplete`: `getTrips attempt` is the result
of the `getTrip` call issued on iteration `attempt` (either the parsed trip or
the message it threw, which the loop propagates). Recursion is on the number
of remaining iterations. -/
def pollAux (getTrips : Nat → Except String TripResponse) (attempt : Nat) :
    Nat → Except String TripResponse
  | 0 => Except.error "Trip generation timed out"
  | remaining + 1 =>
    match getTrips attempt with
    | Except.error e => Except.error e
    | Except.ok trip =>
      if trip.status == "completed" then Except.ok trip
      else if trip.status == "failed" then Except.error (failedMessage trip.errors)
      else pollAux getTrips (attempt + 1) remaining

/-- `pollTripUntilComplete` with its `maxAttempts` parameter (default 60). -/
def pollTripUntilComplete (getTrips : Nat → Except String TripResponse)
    (maxAttempts : Nat := 60) : Except String TripResponse :=
  pollAux getTrips 0 maxAttempts

/-- Number of `getTrip` calls `pollAux` issues from `attempt` with the given
remaining iteration count. -/
def pollCallsAux (getTrips : Nat → Except String TripResponse) (attempt : Nat) :
    Nat → Nat
  | 0 => 0
  | remaining + 1 =>
    match getTrips attempt with
    | Except.error _ => 1
    | Except.ok trip =>
      if trip.status == "completed" then 1
      else if trip.status == "failed" then 1
      else 1 + pollCallsAux getTrips (attempt + 1) remaining

/-- Number of `getTrip` calls issued by `pollTripUntilComplete`. -/
def pollCalls (getTrips : Nat → Except String TripResponse)
    (maxAttempts : Nat := 60) : Nat :=
  pollCallsAux getTrips 0 maxAttempts

end Api

/-! ## JavaScript dates

A `Date` is its millisecond timestamp, `none` standing for an Invalid Date
(internal time value `NaN`). The embedding fixes the runtime's local time
zone to UTC, so the local accessors (`getFullYear`, `setHours`, …) coincide
with the UTC ones, and it covers the post-epoch ISO `YYYY-MM-DD` date
strings the application produces. -/

/-- A JavaScript `Date` value. -/
abbrev JSDate := Option Nat

def msPerDay : Nat := 86400000

/-- Day count of a month of the proleptic Gregorian calendar. -/
def daysInMonth (y m : Nat) : Nat :=
  if m = 2 then (if (y % 4 = 0 ∧ y % 100 ≠ 0) ∨ y % 400 = 0 then 29 else 28)
  else if m = 4 ∨ m = 6 ∨ m = 9 ∨ m = 11 then 30 else 31

/-- Days since 1970-01-01 of the civil date `y-m-d` (for `y ≥ 1970`). -/
def daysFromCivil (y m d : Nat) : Nat :=
  let yAdj := if m ≤ 2 then y - 1 else y
  let era := yAdj / 400
  let yoe := yAdj % 400
  let mp := if m > 2 then m - 3 else m + 9
  let doy := (153 * mp + 2) / 5 + (d - 1)
  let doe := yoe * 365 + yoe / 4 - yoe / 100 + doy
  era * 146097 + doe - 719468

/-- Civil date `(y, m, d)` of a day count since 1970-01-01. -/
def civilFromDays (z : Nat) : Nat × Nat × Nat :=
  let zs := z + 719468
  let era := zs / 146097
  let doe := zs % 146097
  let yoe := (doe - doe / 1460 + doe / 36524 - doe / 146097) / 365
  let y := yoe + era * 400
  let doy := doe - (365 * yoe + yoe / 4 - yoe / 100)
  let mp := (5 * doy + 2) / 153
  let d := doy - (153 * mp + 2) / 5 + 1
  let m := if mp < 10 then mp + 3 else mp - 9
  (if m ≤ 2 then y + 1 else y, m, d)

/-- Is `s` a non-empty string of decimal digits? -/
def isDigits (s : String) : Bool :=
  s.length > 0 && s.data.all (·.isDigit)

/-- Parse an ISO `YYYY-MM-DD` calendar date; `none` for anything a JS engine
would turn into an Invalid Date (and for the pre-1970 dates outside the
embedding's coverage). -/
def parseIsoDate (s : String) : Option (Nat × Nat × Nat) :=
  match s.splitOn "-" with
  | [ys, ms, ds] =>
    if ys.length = 4 && ms.length = 2 && ds.length = 2 &&
        isDigits ys && isDigits ms && isDigits ds then
      match ys.toNat?, ms.toNat?, ds.toNat? with
      | some y, some m, some d =>
        if 1970 ≤ y ∧ 1 ≤ m ∧ m ≤ 12 ∧ 1 ≤ d ∧ d ≤ daysInMonth y m then
          some (y, m, d)
        else none
      | _, _, _ => none
    else none
  | _ => none

/-- `new Date(s)` for a calendar-date string: UTC midnight of that date. -/
def newDateFromDateString (s : String) : JSDate :=
  (parseIsoDate s).map (fun ymd => daysFromCivil ymd.1 ymd.2.1 ymd.2.2 * msPerDay)

/-- `date.getUTCFullYear()` (= `getFullYear()` in the UTC runtime). -/
def getUTCFullYear (date : JSDate) : JsNum :=
  date.map (fun ms => (civilFromDays (ms / msPerDay)).1)

/-- `date.getUTCMonth()` (0-based, as in JS). -/
def getUTCMonth (date : JSDate) : JsNum :=
  date.map (fun ms => (civilFromDays (ms / msPerDay)).2.1 - 1)

/-- `date.getUTCDate()`. -/
def getUTCDate (date : JSDate) : JsNum :=
  date.map (fun ms => (civilFromDays (ms / msPerDay)).2.2)

/-- `date.getUTCHours()`. -/
def getUTCHours (date : JSDate) : JsNum :=
  date.map (fun ms => ms / 3600000 % 24)

/-- `date.getUTCMinutes()`. -/
def getUTCMinutes (date : JSDate) : JsNum :=
  date.map (fun ms => ms / 60000 % 60)

/-- `date.getUTCSeconds()`. -/
def getUTCSeconds (date : JSDate) : JsNum :=
  date.map (fun ms => ms / 1000 % 60)

/-- Addition on a possibly-`NaN` number (`NaN + n = NaN`). -/
def jsAdd (v : JsNum) (n : Nat) : JsNum := v.map (· + n)

/-- `Number(s)` restricted to the decimal strings the app handles:
`""` is 0, digit strings are their value, anything else is `NaN`. -/
def jsNumber (s : String) : JsNum :=
  if s = "" then some 0 else s.toNat?

namespace TripConverter

/-! Embedding of `src/Frontend/wandergenie/src/utils/tripConverter.ts`
(shipped after `MapView.tsx`). -/

open Api

/-- `FrontendDay` from `tripConverter.ts`. -/
structure FrontendDay where
  date : String
  activities : List FrontendActivity
  deriving Repr, DecidableEq

/-- `FrontendTrip` from `tripConverter.ts`. -/
structure FrontendTrip where
  trip_id : String
  status : String
  city : String
  origin : String
  start_date : String
  end_date : String
  days : List FrontendDay
  booking_links : BookingLinks
  deriving Repr, DecidableEq

/-- `getActivityType`: food when some lowercased tag contains one of the food
words, or (checked inside the same `some` callback, so only when at least one
tag exists) the lowercased POI name contains "lunch"; otherwise attraction. -/
def getActivityType (poi : POI) : String :=
  let tags := poi.tags.map (·.toLower)
  if tags.any (fun tag =>
      jsIncludes tag "food" ||
      jsIncludes tag "restaurant" ||
      jsIncludes tag "cafe" ||
      jsIncludes tag "pizza" ||
      jsIncludes tag "lunch" ||
      jsIncludes tag "dinner" ||
      jsIncludes poi.name.toLower "lunch") then
    "food"
  else
    "attraction"

/-- `convertTimeBlockToActivity`. `booking_url || undefined` and
`notes || undefined` turn null into undefined and also an empty string into
undefined (JS falsiness), which `Option.filter (· ≠ "")` captures. -/
def convertTimeBlockToActivity (block : TimeBlock) : FrontendActivity :=
  { time := block.start_time
    name := block.poi.name
    type := getActivityType block.poi
    lat := block.poi.lat
    lon := block.poi.lon
    duration_min := block.poi.duration_min
    booking_required := some block.poi.booking_required
    booking_url := block.poi.booking_url.filter (fun s => s ≠ "")
    notes := block.poi.notes.filter (fun s => s ≠ "") }

/-- `convertDay`: prefer `blocks` (internal format), fall back to an already
`activities`-shaped payload (PATCH responses), else an empty activity list.
A present-but-empty array is truthy in JS, so `some []` takes its branch. -/
def convertDay (backendDay : Day) : FrontendDay :=
  match backendDay.blocks with
  | some blocks =>
    { date := backendDay.date
      activities := blocks.map convertTimeBlockToActivity }
  | none =>
    match backendDay.activities with
    | some activities => { date := backendDay.date, activities := activities }
    | none => { date := backendDay.date, activities := [] }

/-- `convertBackendTripToFrontend`: `Array.isArray(backendTrip.days)` guards
the conversion; a non-array (`none`) becomes the empty day list. -/
def convertBackendTripToFrontend (backendTrip : TripResponse) : FrontendTrip :=
  let days := match backendTrip.days with
    | some ds => ds
    | none => []
  { trip_id := backendTrip.trip_id
    status := backendTrip.status
    city := backendTrip.city
    origin := backendTrip.origin
    start_date := backendTrip.start_date
    end_date := backendTrip.end_date
    days := days.map convertDay
    booking_links := backendTrip.booking_links }

end TripConverter

namespace UseTrip

/-! Embedding of the `useTrip` React hook (`src/hooks/useTrip.ts`, shipped as
`src/unnamed/part_002`). The four `useState` cells are one explicit state
record; an async action is a function from the current state and the results
of the awaited calls to the final state after the `finally` block ran. -/

open Api TripConverter

/-- The hook's state: `trip`, `isLoading`, `error`, `progress`. -/
structure TripUIState where
  trip : Option FrontendTrip
  isLoading : Bool
  error : Option String
  progress : Option String
  deriving Repr, DecidableEq

/-- `modifyTrip`. `editResult` is what `await editTrip(...)` produced and
`pollResult` what `await pollTripUntilComplete(...)` would produce — the
latter is consulted only when the edit response has status `processing`.
The catch block records the error message, the finally block clears
`isLoading`; `setTrip` runs only on the success paths. -/
def modifyTrip (s : TripUIState)
    (editResult : Except String TripResponse)
    (pollResult : Except String TripResponse) : TripUIState :=
  match s.trip with
  | none => { s with error := some "No trip to modify" }
  | some _ =>
    match editResult with
    | Except.error e =>
      { s with isLoading := false, error := some e, progress := none }
    | Except.ok backendTrip =>
      if backendTrip.status == "processing" then
        match pollResult with
        | Except.error e =>
          { s with isLoading := false, error := some e, progress := none }
        | Except.ok completedTrip =>
          { s with trip := some (convertBackendTripToFrontend completedTrip)
                   isLoading := false, error := none, progress := none }
      else
        { s with trip := some (convertBackendTripToFrontend backendTrip)
                 isLoading := false, error := none, progress := none }

/-- `createNewTrip`. `createResult` is what `await createTrip(prompt)`
produced and `pollResult` what `await pollTripUntilComplete(trip_id)`
produced (consulted only when creation succeeded). -/
def createNewTrip (s : TripUIState)
    (createResult : Except String CreateTripBody)
    (pollResult : Except String TripResponse) : TripUIState :=
  match createResult with
  | Except.error e =>
    { s with isLoading := false, error := some e, progress := none }
  | Except.ok _ =>
    match pollResult with
    | Except.error e =>
      { s with isLoading := false, error := some e, progress := none }
    | Except.ok backendTrip =>
      { s with trip := some (convertBackendTripToFrontend backendTrip)
               isLoading := false, error := none, progress := none }

end UseTrip

namespace CalendarExport

/-! Embedding of `src/utils/calendarExport.ts` (shipped inside
`src/docs/VECTORDB_IMPLEMENTATION.md`). -/

/-- `TripActivity` from `calendarExport.ts`. -/
structure TripActivity where
  time : String
  type : String
  name : String
  lat : JsNum
  lon : JsNum
  duration_min : Option Nat
  booking_required : Option Bool
  booking_url : Option String
  notes : Option String
  deriving Repr, DecidableEq

/-- `TripDay` from `calendarExport.ts`. -/
structure TripDay where
  date : String
  activities : List TripActivity
  deriving Repr, DecidableEq

/-- The optional-field `booking_links` shape of `calendarExport.ts`. -/
structure BookingLinksOpt where
  flights : Option String
  hotels : Option String
  deriving Repr, DecidableEq

/-- `Trip` from `calendarExport.ts`. `end_date` is declared required but the
consumers guard it with `?? start_date`, so the embedding carries it as
optional. -/
structure Trip where
  trip_id : Option String
  status : Option String
  city : String
  origin : Option String
  start_date : String
  end_date : Option String
  days : List TripDay
  booking_links : Option BookingLinksOpt
  deriving Repr, DecidableEq

def DEFAULT_DURATION_MIN : Nat := 90

/-- `pad`: `value.toString().padStart(2, "0")`. -/
def pad (value : JsNum) : String :=
  padStartTwo (jsNumToString value)

/-- `formatICSDate`. On an Invalid Date every accessor is `NaN` and the
pieces print as `NaN`, exactly as in JS. -/
def formatICSDate (date : JSDate) : String :=
  jsNumToString (getUTCFullYear date) ++
  pad (jsAdd (getUTCMonth date) 1) ++
  pad (getUTCDate date) ++
  "T" ++
  pad (getUTCHours date) ++
  pad (getUTCMinutes date) ++
  pad (getUTCSeconds date) ++
  "Z"

/-- `value.replace(/c/g, repl)` for a single-character pattern: every
occurrence of `target` becomes `repl`. -/
def replaceAllChar (target : Char) (repl : List Char) (s : List Char) : List Char :=
  s.flatMap (fun c => if c = target then repl else [c])

/-- `sanitize`: `if (!value) return ""` (undefined and the empty string are
falsy), then the four chained global replacements — backslash doubled first,
then comma, semicolon and newline each escaped with a backslash. -/
def sanitize (value : Option String) : String :=
  match value with
  | none => ""
  | some v =>
    if v = "" then ""
    else
      String.mk
        (replaceAllChar '\n' ['\\', 'n']
          (replaceAllChar ';' ['\\', ';']
            (replaceAllChar ',' ['\\', ',']
              (replaceAllChar '\\' ['\\', '\\'] v.data))))

/-- `activity.time.split(":").map(Number)` destructured as
`[hours, minutes]`: the first component always exists (`split` never
returns an empty array) and the second is `undefined` (outer `none`) when
the time has no colon. -/
def parseTimeParts (time : String) : JsNum × Option JsNum :=
  let parts := (time.splitOn ":").map jsNumber
  (parts.headD none, (parts.drop 1).head?)

/-- The `start` date of `buildEvent`: local (= UTC) midnight of the day's
date with `setHours(hours ?? 0, minutes ?? 0, 0, 0)` applied. `hours` is
never `undefined`, so `?? 0` only rescues a missing `minutes`; a `NaN`
component or an unparsable date yields an Invalid Date. -/
def eventStart (activity : TripActivity) (day : TripDay) : JSDate :=
  let hm := parseTimeParts activity.time
  let minutesEff : JsNum := match hm.2 with
    | none => some 0
    | some v => v
  match newDateFromDateString day.date, hm.1, minutesEff with
  | some mid, some h, some m => some (mid + h * 3600000 + m * 60000)
  | _, _, _ => none

/-- The `end` date of `buildEvent`:
`new Date(start.getTime() + eventDuration * 60 * 1000)`. -/
def eventEnd (activity : TripActivity) (day : TripDay) : JSDate :=
  (eventStart activity day).map
    (· + (activity.duration_min.getD DEFAULT_DURATION_MIN) * 60 * 1000)

/-- `descriptionParts` of `buildEvent`, after its `.filter(Boolean)`:
falsy entries — `null`s and empty strings — are dropped. -/
def descriptionParts (activity : TripActivity) : List String :=
  [some ("Type: " ++ activity.type),
   if activity.booking_required.getD false then some "Booking required" else none,
   match activity.booking_url with
   | some u => if u = "" then none else some ("Link: " ++ u)
   | none => none,
   match activity.notes with
   | some n => if n = "" then none else some n
   | none => none].reduceOption

/-- The line array of `buildEvent` after its `.filter(Boolean)`. -/
def buildEventLines (activity : TripActivity) (day : TripDay) (city : String)
    (stamp : String) (index : Nat) : List String :=
  let parts := descriptionParts activity
  ["BEGIN:VEVENT",
   "UID:" ++ (stamp ++ "-" ++ toString index ++ "@wandergenie"),
   "DTSTAMP:" ++ stamp,
   "DTSTART:" ++ formatICSDate (eventStart activity day),
   "DTEND:" ++ formatICSDate (eventEnd activity day),
   "SUMMARY:" ++ sanitize (some activity.name),
   "LOCATION:" ++ sanitize (some (activity.name ++ ", " ++ city))] ++
  ([if parts.length != 0
    then some ("DESCRIPTION:" ++ sanitize (some (String.intercalate " | " parts)))
    else none,
    match activity.booking_url with
    | some u => if u = "" then none else some ("URL:" ++ sanitize (some u))
    | none => none].reduceOption) ++
  ["END:VEVENT"]

/-- `buildEvent`: the filtered lines joined with `"\n"`. -/
def buildEvent (activity : TripActivity) (day : TripDay) (city : String)
    (stamp : String) (index : Nat) : String :=
  String.intercalate "\n" (buildEventLines activity day city stamp index)

/-- `generateICS`; `now` is the `new Date()` timestamp. -/
def generateICS (now : JSDate) (trip : Trip) : String :=
  let stamp := formatICSDate now
  let events := trip.days.enum.flatMap (fun dayPair =>
    dayPair.2.activities.enum.map (fun actPair =>
      buildEvent actPair.2 dayPair.2 trip.city stamp
        (dayPair.1 * 100 + actPair.1)))
  String.intercalate "\n"
    (["BEGIN:VCALENDAR",
      "VERSION:2.0",
      "PRODID:-//WanderGenie//Trip Export//EN",
      "CALSCALE:GREGORIAN"] ++ events ++ ["END:VCALENDAR"])

/-- The individual lines of `generateICS`'s output (the same text before the
final join, each event contributing its own line list). -/
def icsLines (now : JSDate) (trip : Trip) : List String :=
  let stamp := formatICSDate now
  ["BEGIN:VCALENDAR",
   "VERSION:2.0",
   "PRODID:-//WanderGenie//Trip Export//EN",
   "CALSCALE:GREGORIAN"] ++
  trip.days.enum.flatMap (fun dayPair =>
    dayPair.2.activities.enum.flatMap (fun actPair =>
      buildEventLines actPair.2 dayPair.2 trip.city stamp
        (dayPair.1 * 100 + actPair.1))) ++
  ["END:VCALENDAR"]

/-- Total number of activities of a trip, across all days. -/
def totalActivities (trip : Trip) : Nat :=
  (trip.days.map (fun d => d.activities.length)).sum

/-- The claim's per-character escaping: backslash, comma, semicolon and
newline each get a preceding backslash (newline becoming `\n`), every other
character is kept. Stated from the specification's words, to be compared
with the code's `sanitize`. -/
def escapeICSChar (c : Char) : List Char :=
  if c = '\\' then ['\\', '\\']
  else if c = ',' then ['\\', ',']
  else if c = ';' then ['\\', ';']
  else if c = '\n' then ['\\', 'n']
  else [c]

end CalendarExport

namespace TravelLinks

/-! Embedding of `src/Frontend/wandergenie/src/utils/travelLinks.ts`. -/

open CalendarExport

/-- `pad` from `travelLinks.ts`. -/
def pad (value : JsNum) : String :=
  padStartTwo (jsNumToString value)

/-- `formatIsoDate`: local (= UTC) year, month and day as `YYYY-MM-DD`. -/
def formatIsoDate (date : JSDate) : String :=
  jsNumToString (getUTCFullYear date) ++ "-" ++
  pad (jsAdd (getUTCMonth date) 1) ++ "-" ++
  pad (getUTCDate date)

/-- `getAllActivities`. -/
def getAllActivities (trip : Trip) : List TripActivity :=
  trip.days.flatMap (fun day => day.activities)

/-- `getPrimaryPOI`: the first activity with numeric, non-`NaN` coordinates,
else the first activity, else `undefined`. -/
def getPrimaryPOI (trip : Trip) : Option TripActivity :=
  match (getAllActivities trip).find? (fun a => a.lat.isSome && a.lon.isSome) with
  | some a => some a
  | none => (getAllActivities trip).head?

/-- `getStartDate`. -/
def getStartDate (trip : Trip) : JSDate :=
  newDateFromDateString trip.start_date

/-- `getEndDate`: `new Date(trip.end_date ?? trip.start_date)`. -/
def getEndDate (trip : Trip) : JSDate :=
  newDateFromDateString (trip.end_date.getD trip.start_date)

/-- JS truthiness of a possibly-`NaN` number: `0`, `NaN` are falsy. -/
def jsNumTruthy : JsNum → Bool
  | none => false
  | some n => n != 0

/-- The `URLSearchParams` of `buildHotelsLink`, in insertion order (`set` on
absent keys appends). -/
def hotelsParams (trip : Trip) : List (String × String) :=
  let anchor := getPrimaryPOI trip
  let checkin := getStartDate trip
  let checkout := getEndDate trip
  let base :=
    [("ss", trip.city ++ " near " ++
        (match anchor with | some a => a.name | none => "city center")),
     ("checkin", formatIsoDate checkin),
     ("checkout", formatIsoDate checkout),
     ("group_adults", "2"),
     ("no_rooms", "1"),
     ("group_children", "0")]
  match anchor with
  | some a =>
    if jsNumTruthy a.lat && jsNumTruthy a.lon then
      base ++
      [("selected_latitude", jsNumToString a.lat),
       ("selected_longitude", jsNumToString a.lon),
       ("radius", "5"),
       ("order", "distance_from_landmark")]
    else base
  | none => base

/-- One hex digit, uppercase (as `URLSearchParams` serialises). -/
def hexDigit (n : Nat) : Char :=
  if n < 10 then Char.ofNat (48 + n) else Char.ofNat (55 + n)

/-- `application/x-www-form-urlencoded` escape of one character. -/
def formEncodeChar (c : Char) : String :=
  if c.isAlphanum || c = '*' || c = '-' || c = '.' || c = '_' then
    String.singleton c
  else if c = ' ' then "+"
  else
    String.join (((String.singleton c).toUTF8.toList).map (fun b =>
      "%" ++ String.singleton (hexDigit (b.toNat / 16)) ++
      String.singleton (hexDigit (b.toNat % 16))))

/-- `application/x-www-form-urlencoded` escape of a string. -/
def formEncode (s : String) : String :=
  String.join (s.data.map formEncodeChar)

/-- `params.toString()`. -/
def urlParamsToString (ps : List (String × String)) : String :=
  String.intercalate "&" (ps.map (fun kv => formEncode kv.1 ++ "=" ++ formEncode kv.2))

/-- The generated booking.com URL of `buildHotelsLink`. -/
def generatedHotelsUrl (trip : Trip) : String :=
  "https://www.booking.com/searchresults.html?" ++ urlParamsToString (hotelsParams trip)

/-- The record `buildHotelsLink` returns. -/
structure HotelsLink where
  url : String
  landmark : String
  deriving Repr, DecidableEq

/-- `buildHotelsLink`: the trip's own `booking_links.hotels` when defined,
else the generated search URL; the landmark is the anchor's name or the
city. -/
def buildHotelsLink (trip : Trip) : HotelsLink :=
  { url :=
      match trip.booking_links with
      | some bl =>
        match bl.hotels with
        | some h => h
        | none => generatedHotelsUrl trip
      | none => generatedHotelsUrl trip
    landmark :=
      match getPrimaryPOI trip with
      | some a => a.name
      | none => trip.city }

end TravelLinks

namespace Engine

/-! The Itinerary Packaging & Validation Engine. The backend scheduler,
validator and edit engine the specification describes are not among the
repository's shipped files (only their callers and serialized output
shapes are), so this namespace models them from the specification's own
algorithm description (sections 3, 4.1, 4.3 and 4.4). Times are minutes of
the day; dates are calendar-day numbers. -/

/-- Modelled from the spec: a normalized, immutable POI record (§3) of the
missing backend pool; opening hours are `Unknown | Window(start, end)`. -/
structure SPOI where
  id : Nat
  name : String
  popularity : Nat
  duration_min : Nat
  tags : List String
  hours : Option (Nat × Nat)
  booking_required : Bool
  deriving Repr, DecidableEq

/-- Modelled from the spec: a TimeBlock (§3) of the missing Day Scheduler
(`stop` stands for the spec's `end`, a Lean keyword). -/
structure SBlock where
  poi : SPOI
  start : Nat
  stop : Nat
  travel_from_previous : Nat
  flagged : Bool
  deriving Repr, DecidableEq

/-- Modelled from the spec: a Day (§3), a date with its ordered blocks. -/
structure SDay where
  date : Nat
  blocks : List SBlock
  deriving Repr, DecidableEq

/-- Modelled from the spec: the Trip record (§3) the missing engine
produces. -/
structure STrip where
  status : String
  days : List SDay
  validation_errors : List String
  deriving Repr, DecidableEq

/-- Modelled from the spec: resolved TripConstraints (§3, §4.1): the date
range, the per-day time window and the per-day activity cap the Constraint
Resolver derives. -/
structure SConstraints where
  startDay : Nat
  endDay : Nat
  dayWindowStart : Nat
  dayWindowEnd : Nat
  perDayCap : Nat
  deriving Repr, DecidableEq

/-- Do two POIs share a tag (the category-repeat test of §4.3)? -/
def hasCommonTag (p q : SPOI) : Bool :=
  p.tags.any (fun t => q.tags.contains t)

/-- Modelled from the spec: the category-repeat penalty of §4.3 step 2b —
discourage two same-tag POIs back-to-back unless the remaining pool is
tag-homogeneous with the previous POI. -/
def categoryRepeatPenalty (prev : Option SPOI) (cand : SPOI) (pool : List SPOI) : Nat :=
  match prev with
  | none => 0
  | some p =>
    if hasCommonTag p cand && !(pool.all (fun q => hasCommonTag p q)) then 1 else 0

/-- Modelled from the spec: the §4.3 step 2a candidate filter — the opening
window (if known) must contain `[cursor, cursor + duration]`, unknown hours
are permissive (but flagged on the block), and no POI is force-fit past the
close of the day window. -/
def fitsAt (windowEnd cursor travelMin : Nat) (p : SPOI) : Bool :=
  (cursor + travelMin + p.duration_min ≤ windowEnd) &&
  (match p.hours with
   | none => true
   | some w => w.1 ≤ cursor && cursor + p.duration_min ≤ w.2)

/-- Modelled from the spec: §4.3 step 2c — pick the maximal score with the
deterministic tie-break by ascending POI id. -/
def pickBest (score : SPOI → Int) : List SPOI → Option SPOI
  | [] => none
  | p :: rest =>
    match pickBest score rest with
    | none => some p
    | some q =>
      if score q > score p || (score q == score p && q.id < p.id) then some q
      else some p

/-- Modelled from the spec: the §4.3 step 2 scoring
`w1·popularity − w2·travel − w3·category_repeat_penalty`. -/
def scoreOf (w1 w2 w3 : Nat) (travelMin : Nat) (prev : Option SPOI)
    (pool : List SPOI) (cand : SPOI) : Int :=
  (w1 : Int) * cand.popularity - (w2 : Int) * travelMin -
    (w3 : Int) * categoryRepeatPenalty prev cand pool

/-- Modelled from the spec: the per-day greedy loop of §4.3 — state is the
cursor time, the previous POI and the unused pool; each step filters the
fitting candidates, picks the best score, appends
`TimeBlock(start = cursor + travel, end = start + duration)` and advances
the cursor to `end + gap`; it stops when the budget is spent or no
candidate fits. -/
def scheduleDayAux (travel : Option SPOI → SPOI → Nat) (gap w1 w2 w3 windowEnd : Nat) :
    Nat → Nat → Option SPOI → List SPOI → List SBlock
  | 0, _, _, _ => []
  | budget + 1, cursor, prev, pool =>
    let fitting := pool.filter (fun p => fitsAt windowEnd cursor (travel prev p) p)
    match pickBest (fun cand => scoreOf w1 w2 w3 (travel prev cand) prev pool cand) fitting with
    | none => []
    | some c =>
      let tr := travel prev c
      let st := cursor + tr
      let en := st + c.duration_min
      { poi := c, start := st, stop := en, travel_from_previous := tr,
        flagged := c.hours.isNone } ::
        scheduleDayAux travel gap w1 w2 w3 windowEnd
          budget (en + gap) (some c)
          (pool.filter (fun q => q.id ≠ c.id))

/-- Modelled from the spec: one day's schedule (§4.3), starting at the day
window's opening with the pace-derived activity budget. -/
def scheduleDay (travel : Option SPOI → SPOI → Nat) (gap w1 w2 w3 : Nat)
    (windowStart windowEnd budget : Nat) (pool : List SPOI) : List SBlock :=
  scheduleDayAux travel gap w1 w2 w3 windowEnd budget windowStart none pool

/-- Modelled from the spec: one sequential step of the multi-day pass —
schedule one calendar day from the remaining pool, append the Day, and
remove the used POIs from the pool carried to later days. -/
def scheduleStep (travel : Option SPOI → SPOI → Nat) (gap w1 w2 w3 : Nat)
    (c : SConstraints) (acc : List SDay × List SPOI) (dt : Nat) :
    List SDay × List SPOI :=
  let blocks := scheduleDay travel gap w1 w2 w3
    c.dayWindowStart c.dayWindowEnd c.perDayCap acc.2
  (acc.1 ++ [{ date := dt, blocks := blocks }],
   acc.2.filter (fun p => !(blocks.any (fun b => b.poi.id == p.id))))

/-- Modelled from the spec: the raw multi-day schedule (§2 dataflow, §4.3
step 3): one Day per calendar day of the range, scheduled sequentially with
the used POIs removed from the pool carried to later days; an empty day is
an empty-day placeholder recorded in `validation_errors`, not a failure. -/
def createRaw (travel : Option SPOI → SPOI → Nat) (gap w1 w2 w3 : Nat)
    (c : SConstraints) (pool : List SPOI) : STrip :=
  let span := c.endDay - c.startDay + 1
  let dayNums := (List.range span).map (fun k => c.startDay + k)
  let daysPool := dayNums.foldl (scheduleStep travel gap w1 w2 w3 c) ([], pool)
  { status := "processing"
    days := daysPool.1
    validation_errors :=
      (daysPool.1.filter (fun d => d.blocks.isEmpty)).map
        (fun d => "day " ++ toString d.date ++ " has no scheduled activities") }

/-- Modelled from the spec: the §4.4 violation kinds the Validator checks
(non-overlap, per-day cap, opening-hours compliance, trip-wide duplicate
POI ids). -/
inductive Violation where
  | overlap (dayIdx : Nat)
  | capExceeded (dayIdx : Nat)
  | hoursViolation (dayIdx blockIdx : Nat)
  | duplicatePOI (id : Nat)
  deriving Repr, DecidableEq

/-- Does an adjacent pair of a day's blocks overlap (violate
`start[i+1] ≥ end[i] + travel[i+1]`)? -/
def dayOverlaps : List SBlock → Bool
  | b₁ :: b₂ :: rest =>
    decide (b₂.start < b₁.stop + b₂.travel_from_previous) || dayOverlaps (b₂ :: rest)
  | _ => false

/-- A block complies with its POI's opening hours where known. -/
def blockHoursOk (b : SBlock) : Bool :=
  match b.poi.hours with
  | none => true
  | some w => w.1 ≤ b.start && b.stop ≤ w.2

/-- All POI ids of a trip, in day order then block order. -/
def allPoiIds (t : STrip) : List Nat :=
  t.days.flatMap (fun d => d.blocks.map (fun b => b.poi.id))

/-- Modelled from the spec: the ordered §4.4 checks — (a) non-overlap,
(b) per-day cap, (c) opening-hours compliance where known, (e) duplicate
POI ids trip-wide. -/
def violations (cap : Nat) (t : STrip) : List Violation :=
  (t.days.enum.filterMap (fun dp =>
    if dayOverlaps dp.2.blocks then some (Violation.overlap dp.1) else none)) ++
  (t.days.enum.filterMap (fun dp =>
    if cap < dp.2.blocks.length then some (Violation.capExceeded dp.1) else none)) ++
  (t.days.enum.flatMap (fun dp =>
    dp.2.blocks.enum.filterMap (fun bp =>
      if blockHoursOk bp.2 then none
      else some (Violation.hoursViolation dp.1 bp.1)))) ++
  ((allPoiIds t).filter (fun id => 1 < (allPoiIds t).count id)).dedup.map
    Violation.duplicatePOI

/-- Modelled from the spec: the overlap auto-patch — shift later blocks
forward until each starts no earlier than the previous end plus its travel
buffer. -/
def fixOverlaps : Nat → List SBlock → List SBlock
  | _, [] => []
  | cursor, b :: rest =>
    let st := max b.start (cursor + b.travel_from_previous)
    let b' := { b with start := st, stop := st + b.poi.duration_min }
    b' :: fixOverlaps b'.stop rest

/-- Index of a least-popular block (first such index). -/
def leastPopularIdx (blocks : List SBlock) : Nat :=
  ((blocks.enum.foldl (fun best bp =>
    match best with
    | none => some bp
    | some cur =>
      if bp.2.poi.popularity < cur.2.poi.popularity then some bp else cur)
    none).map Prod.fst).getD 0

/-- Drop `n` least-popular blocks, one at a time. -/
def dropLeast : Nat → List SBlock → List SBlock
  | 0, bs => bs
  | n + 1, bs => dropLeast n (bs.eraseIdx (leastPopularIdx bs))

/-- Keep a day's first block with the given POI id, dropping later ones. -/
def keepFirstInDay (id : Nat) : List SBlock → List SBlock
  | [] => []
  | b :: rest =>
    if b.poi.id = id then b :: rest.filter (fun x => x.poi.id ≠ id)
    else b :: keepFirstInDay id rest

/-- Modelled from the spec: the duplicate-id auto-patch — keep the first
(earlier-day) occurrence of the POI id, drop every later one. -/
def dropLaterDup (id : Nat) : List SDay → List SDay
  | [] => []
  | d :: rest =>
    if d.blocks.any (fun b => b.poi.id == id) then
      { d with blocks := keepFirstInDay id d.blocks } ::
        rest.map (fun d' => { d' with blocks := d'.blocks.filter (fun b => b.poi.id ≠ id) })
    else d :: dropLaterDup id rest

/-- Replace the day at index `di` by `f` applied to it. -/
def mapDayAt (di : Nat) (f : SDay → SDay) (days : List SDay) : List SDay :=
  days.enum.map (fun dp => if dp.1 = di then f dp.2 else dp.2)

/-- Modelled from the spec: the §4.4 auto-patch, a total function per
violation kind — `some` is `Patched(Trip)` (shift later blocks forward for
an overlap; evict least-popular blocks over the cap; drop the later of two
duplicate ids), `none` is `Unpatchable(reason)` (an hours conflict has no
deterministic minimal fix). -/
def patchOne (cap : Nat) (t : STrip) : Violation → Option STrip
  | Violation.overlap di =>
    some { t with
      days := mapDayAt di (fun d => { d with blocks := fixOverlaps 0 d.blocks }) t.days }
  | Violation.capExceeded di =>
    some { t with
      days := mapDayAt di
        (fun d => { d with blocks := dropLeast (d.blocks.length - cap) d.blocks }) t.days }
  | Violation.hoursViolation _ _ => none
  | Violation.duplicatePOI id =>
    some { t with days := dropLaterDup id t.days }

/-- A short description of a violation, recorded in `validation_errors`. -/
def describeViolation : Violation → String
  | Violation.overlap di => "unresolved overlap on day " ++ toString di
  | Violation.capExceeded di => "unresolved cap excess on day " ++ toString di
  | Violation.hoursViolation di bi =>
    "opening-hours conflict on day " ++ toString di ++ " block " ++ toString bi
  | Violation.duplicatePOI id => "duplicate POI " ++ toString id

/-- Modelled from the spec: one validator step — apply the auto-patch when
one exists, otherwise record the violation as unpatchable. -/
def patchStep (cap : Nat) (acc : STrip × List Violation × List Violation)
    (v : Violation) : STrip × List Violation × List Violation :=
  match patchOne cap acc.1 v with
  | some t' => (t', acc.2.1 ++ [v], acc.2.2)
  | none => (acc.1, acc.2.1, acc.2.2 ++ [v])

/-- Modelled from the spec: the §4.4 Validator & Auto-Patcher — one
non-recursive pass over the detected violations; every applied patch is
reported to the caller, unpatchable violations are recorded and mark the
Trip `failed`, otherwise it is reported `completed`. -/
def runValidator (cap : Nat) (t : STrip) : STrip × List Violation :=
  let vs := violations cap t
  let folded := vs.foldl (patchStep cap) (t, [], [])
  ({ folded.1 with
      status := if folded.2.2.isEmpty then "completed" else "failed"
      validation_errors :=
        folded.1.validation_errors ++ folded.2.2.map describeViolation },
   folded.2.1)

/-- Modelled from the spec: `create(constraints, poiPool) -> Trip` (§6) —
the Day Scheduler pipeline followed by the Validator & Auto-Patcher. -/
def create (travel : Option SPOI → SPOI → Nat) (gap w1 w2 w3 : Nat)
    (c : SConstraints) (pool : List SPOI) : STrip :=
  (runValidator c.perDayCap (createRaw travel gap w1 w2 w3 c pool)).1

/-- A concrete constant travel estimate exercising the engine. -/
def travelW : Option SPOI → SPOI → Nat := fun _ _ => 7

/-- A concrete two-POI pool exercising the engine. -/
def poolW : List SPOI :=
  [{ id := 1, name := "Gallery", popularity := 90, duration_min := 60,
     tags := ["art"], hours := none, booking_required := false },
   { id := 2, name := "Park", popularity := 70, duration_min := 60,
     tags := ["outdoors"], hours := none, booking_required := false }]

/-- Concrete one-day constraints with a 09:00–20:00 window and cap 2. -/
def cW : SConstraints :=
  { startDay := 0, endDay := 0, dayWindowStart := 540, dayWindowEnd := 1200,
    perDayCap := 2 }

/-- The single day the engine produces from the concrete inputs. -/
def dayW : SDay :=
  (create travelW 15 1 1 1 cW poolW).days.getD 0 { date := 0, blocks := [] }

/-- A concrete already-valid completed trip. -/
def tripValidW : STrip :=
  { status := "completed", days := [{ date := 0, blocks := [] }],
    validation_errors := [] }

end Engine

/-! ## Helper lemmas -/

/-- Two strings differ when a common-length prefix position differs; here:
appending anything to a string whose first character differs from the first
character of `r` never yields `r`. -/
theorem String.append_ne_of_head_ne (p r q : String) (c c' : Char)
    (hp : p.data = c :: (p.data.tail)) (hr : r.data = c' :: (r.data.tail))
    (hne : c ≠ c') : p ++ q ≠ r := by
  intro h
  have hdata : p.data ++ q.data = r.data := by
    have := congrArg String.data h
    rwa [String.data_append] at this
  rw [hp, hr] at hdata
  exact hne (by injection hdata)

/-- The second component of an `enum` entry is a member of the list. -/
theorem snd_mem_of_mem_enum {α : Type} {l : List α} {p : Nat × α}
    (h : p ∈ l.enum) : p.2 ∈ l := by
  have := List.mem_map_of_mem Prod.snd h
  rwa [List.enum_map_snd] at this

/-- `List.flatten` commutes with `List.flatMap`. -/
theorem flatten_flatMap {α β : Type} (l : List α) (f : α → List (List β)) :
    (l.flatMap f).flatten = l.flatMap (fun x => (f x).flatten) := by
  induction l with
  | nil => rfl
  | cons x xs ih => simp [List.flatMap_cons, List.flatten_append, ih]

/-- Counting in a `flatMap` sums the per-element counts. -/
theorem count_flatMap {α : Type} (l : List α) (f : α → List String) (t : String) :
    ((l.flatMap f).count t) = (l.map (fun x => (f x).count t)).sum := by
  induction l with
  | nil => rfl
  | cons x xs ih => simp [List.flatMap_cons, List.count_append, ih]

namespace CalendarExport

/-- `String.intercalate.go` splits an appended accumulator off. -/
theorem intercalate_go_append (s : String) :
    ∀ (as : List String) (acc₁ acc₂ : String),
      String.intercalate.go (acc₁ ++ acc₂) s as =
        acc₁ ++ String.intercalate.go acc₂ s as := by
  intro as
  induction as with
  | nil => intro a b; rfl
  | cons x xs ih =>
    intro a b
    simp only [String.intercalate.go]
    rw [show a ++ b ++ s ++ x = a ++ (b ++ s ++ x) by simp [String.append_assoc]]
    exact ih a (b ++ s ++ x)

/-- `String.intercalate` over a two-or-more-element list peels its head. -/
theorem intercalate_cons_cons (s a b : String) (l : List String) :
    String.intercalate s (a :: b :: l) = a ++ s ++ String.intercalate s (b :: l) := by
  show String.intercalate.go a s (b :: l) = a ++ s ++ String.intercalate.go b s l
  simp only [String.intercalate.go]
  exact intercalate_go_append s l (a ++ s) b

/-- `String.intercalate` distributes over an append of non-empty lists. -/
theorem intercalate_append (s : String) :
    ∀ (l₁ l₂ : List String), l₁ ≠ [] → l₂ ≠ [] →
      String.intercalate s (l₁ ++ l₂) =
        String.intercalate s l₁ ++ s ++ String.intercalate s l₂ := by
  intro l₁
  induction l₁ with
  | nil => intro l₂ h _; exact absurd rfl h
  | cons a l₁ ih =>
    intro l₂ _ h₂
    cases l₁ with
    | nil =>
      cases l₂ with
      | nil => exact absurd rfl h₂
      | cons b l₂' => simpa using intercalate_cons_cons s a b l₂'
    | cons c l₁' =>
      rw [show (a :: c :: l₁') ++ l₂ = a :: c :: (l₁' ++ l₂) from rfl,
        intercalate_cons_cons s a c (l₁' ++ l₂),
        intercalate_cons_cons s a c l₁',
        show c :: (l₁' ++ l₂) = (c :: l₁') ++ l₂ from rfl,
        ih l₂ (by simp) h₂]
      simp [String.append_assoc]

/-- `String.intercalate` of a singleton is its element. -/
theorem intercalate_singleton (s a : String) :
    String.intercalate s [a] = a := rfl

/-- Joining already-joined line lists equals joining their concatenation,
when no line list is empty. -/
theorem intercalate_map_flatten (s : String) :
    ∀ (ls : List (List String)), (∀ l ∈ ls, l ≠ []) →
      String.intercalate s (ls.map (String.intercalate s)) =
        String.intercalate s ls.flatten := by
  intro ls
  induction ls with
  | nil => intro _; rfl
  | cons l ls ih =>
    intro h
    cases ls with
    | nil => simp [intercalate_singleton]
    | cons l₂ ls₂ =>
      have hl : l ≠ [] := h l (by simp)
      have hrest : ∀ m ∈ l₂ :: ls₂, m ≠ [] := fun m hm => h m (by simp [hm])
      have hflat : (l₂ :: ls₂).flatten ≠ [] := by
        have hl₂ : l₂ ≠ [] := hrest l₂ (by simp)
        cases l₂ with
        | nil => exact absurd rfl hl₂
        | cons x xs => simp [List.flatten_cons]
      calc String.intercalate s ((l :: l₂ :: ls₂).map (String.intercalate s))
          = String.intercalate s l ++ s ++
              String.intercalate s ((l₂ :: ls₂).map (String.intercalate s)) := by
            simp only [List.map_cons]
            exact intercalate_cons_cons s _ _ _
        _ = String.intercalate s l ++ s ++ String.intercalate s (l₂ :: ls₂).flatten := by
            rw [ih hrest]
        _ = String.intercalate s (l ++ (l₂ :: ls₂).flatten) := by
            rw [intercalate_append s l (l₂ :: ls₂).flatten hl hflat]
        _ = String.intercalate s (l :: l₂ :: ls₂).flatten := by
            simp [List.flatten_cons]

/-- Every event line list opens with `BEGIN:VEVENT`, hence is non-empty. -/
theorem buildEventLines_ne_nil (a : TripActivity) (d : TripDay)
    (city stamp : String) (i : Nat) :
    buildEventLines a d city stamp i ≠ [] := by
  simp [buildEventLines]

/-- The text `generateICS` produces is its line list joined by newlines. -/
theorem generateICS_eq_intercalate (now : JSDate) (trip : Trip) :
    generateICS now trip = String.intercalate "\n" (icsLines now trip) := by
  have hne : ∀ l ∈ (["BEGIN:VCALENDAR"] :: ["VERSION:2.0"] ::
      ["PRODID:-//WanderGenie//Trip Export//EN"] :: ["CALSCALE:GREGORIAN"] ::
      ((trip.days.enum.flatMap (fun dayPair =>
        dayPair.2.activities.enum.map (fun actPair =>
          buildEventLines actPair.2 dayPair.2 trip.city (formatICSDate now)
            (dayPair.1 * 100 + actPair.1)))) ++ [["END:VCALENDAR"]])), l ≠ [] := by
    intro l hl
    simp only [List.mem_cons, List.mem_append, List.mem_flatMap, List.mem_map,
      List.mem_singleton] at hl
    rcases hl with h | h | h | h | ⟨dp, _, ap, _, h⟩ | h
    · simp [h]
    · simp [h]
    · simp [h]
    · simp [h]
    · rw [← h]; exact buildEventLines_ne_nil _ _ _ _ _
    · rcases h with h | h
      · simp [h]
      · simp at h
  have key := intercalate_map_flatten "\n" _ hne
  calc generateICS now trip
      = String.intercalate "\n" ((["BEGIN:VCALENDAR"] :: ["VERSION:2.0"] ::
          ["PRODID:-//WanderGenie//Trip Export//EN"] :: ["CALSCALE:GREGORIAN"] ::
          ((trip.days.enum.flatMap (fun dayPair =>
            dayPair.2.activities.enum.map (fun actPair =>
              buildEventLines actPair.2 dayPair.2 trip.city (formatICSDate now)
                (dayPair.1 * 100 + actPair.1)))) ++ [["END:VCALENDAR"]])).map
            (String.intercalate "\n")) := by
        simp only [generateICS, buildEvent]
        congr 1
        simp [List.map_cons, List.map_append, List.map_flatMap, List.map_map,
          intercalate_singleton, Function.comp_def]
    _ = String.intercalate "\n" (["BEGIN:VCALENDAR"] :: ["VERSION:2.0"] ::
          ["PRODID:-//WanderGenie//Trip Export//EN"] :: ["CALSCALE:GREGORIAN"] ::
          ((trip.days.enum.flatMap (fun dayPair =>
            dayPair.2.activities.enum.map (fun actPair =>
              buildEventLines actPair.2 dayPair.2 trip.city (formatICSDate now)
                (dayPair.1 * 100 + actPair.1)))) ++ [["END:VCALENDAR"]])).flatten := key
    _ = String.intercalate "\n" (icsLines now trip) := by
        congr 1
        simp [icsLines, List.flatten_cons, List.flatten_append, flatten_flatMap,
          List.flatMap_def, List.flatten_flatten, List.map_map, Function.comp_def]

/-- Every event contributes exactly one `BEGIN:VEVENT` and one `END:VEVENT`
line: every other line of `buildEvent` starts with a different keyword. -/
theorem buildEventLines_count (a : TripActivity) (d : TripDay)
    (city stamp : String) (i : Nat) :
    (buildEventLines a d city stamp i).count "BEGIN:VEVENT" = 1 ∧
    (buildEventLines a d city stamp i).count "END:VEVENT" = 1 := by
  have hne : ∀ (p : String) (c : Char), p.data = c :: p.data.tail → c ≠ 'B' → c ≠ 'E' →
      ∀ x, (((p ++ x) == "BEGIN:VEVENT") = false ∧ ((p ++ x) == "END:VEVENT") = false) := by
    intro p c hp hB hE x
    constructor
    · exact beq_eq_false_iff_ne.mpr
        (String.append_ne_of_head_ne p "BEGIN:VEVENT" x c 'B' hp rfl hB)
    · exact beq_eq_false_iff_ne.mpr
        (String.append_ne_of_head_ne p "END:VEVENT" x c 'E' hp rfl hE)
  have eUID := hne "UID:" 'U' rfl (by decide) (by decide)
  have eDTSTAMP := hne "DTSTAMP:" 'D' rfl (by decide) (by decide)
  have eDTSTART := hne "DTSTART:" 'D' rfl (by decide) (by decide)
  have eDTEND := hne "DTEND:" 'D' rfl (by decide) (by decide)
  have eSUMMARY := hne "SUMMARY:" 'S' rfl (by decide) (by decide)
  have eLOCATION := hne "LOCATION:" 'L' rfl (by decide) (by decide)
  have eDESC := hne "DESCRIPTION:" 'D' rfl (by decide) (by decide)
  have eURL := hne "URL:" 'U' rfl (by decide) (by decide)
  have hmid : ∀ t : String, (∀ x, (("DESCRIPTION:" ++ x) == t) = false) →
      (∀ x, (("URL:" ++ x) == t) = false) →
      ([if (descriptionParts a).length != 0
          then some ("DESCRIPTION:" ++
            sanitize (some (String.intercalate " | " (descriptionParts a))))
          else none,
        match a.booking_url with
        | some u => if u = "" then none else some ("URL:" ++ sanitize (some u))
        | none => none].reduceOption).count t = 0 := by
    intro t hD hU
    rw [List.count_eq_zero]
    intro hmem
    rw [List.reduceOption_mem_iff] at hmem
    simp only [List.mem_cons, List.not_mem_nil, or_false] at hmem
    rcases hmem with h | h
    · by_cases hp : ((descriptionParts a).length != 0) = true
      · rw [if_pos hp] at h
        have := hD (sanitize (some (String.intercalate " | " (descriptionParts a))))
        rw [beq_eq_false_iff_ne] at this
        exact this (Option.some.inj h.symm)
      · rw [if_neg hp] at h
        exact Option.noConfusion h
    · cases hu : a.booking_url with
      | none => rw [hu] at h; exact Option.noConfusion h
      | some u =>
        rw [hu] at h
        have h' : some t = if u = "" then none
            else some ("URL:" ++ sanitize (some u)) := h
        by_cases hu0 : u = ""
        · rw [if_pos hu0] at h'
          exact Option.noConfusion h'
        · rw [if_neg hu0] at h'
          have := hU (sanitize (some u))
          rw [beq_eq_false_iff_ne] at this
          exact this (Option.some.inj h'.symm)
  constructor
  · simp only [buildEventLines, List.count_append, List.count_cons, List.count_nil,
      (eUID _).1, (eDTSTAMP _).1, (eDTSTART _).1, (eDTEND _).1, (eSUMMARY _).1,
      (eLOCATION _).1]
    rw [hmid "BEGIN:VEVENT" (fun x => (eDESC x).1) (fun x => (eURL x).1)]
    simp
  · simp only [buildEventLines, List.count_append, List.count_cons, List.count_nil,
      (eUID _).2, (eDTSTAMP _).2, (eDTSTART _).2, (eDTEND _).2, (eSUMMARY _).2,
      (eLOCATION _).2]
    rw [hmid "END:VEVENT" (fun x => (eDESC x).2) (fun x => (eURL x).2)]
    simp

/-- `generateICS` emits exactly one `BEGIN:VEVENT` (and one `END:VEVENT`)
line per activity. -/
theorem icsLines_count (now : JSDate) (trip : Trip) :
    (icsLines now trip).count "BEGIN:VEVENT" = totalActivities trip ∧
    (icsLines now trip).count "END:VEVENT" = totalActivities trip := by
  have key : ∀ t : String, t = "BEGIN:VEVENT" ∨ t = "END:VEVENT" →
      (icsLines now trip).count t = totalActivities trip := by
    intro t ht
    have hone : ∀ (dp : Nat × TripDay) (ap : Nat × TripActivity),
        (buildEventLines ap.2 dp.2 trip.city (formatICSDate now)
          (dp.1 * 100 + ap.1)).count t = 1 := by
      intro dp ap
      rcases ht with h | h <;> rw [h]
      · exact (buildEventLines_count ap.2 dp.2 trip.city (formatICSDate now) _).1
      · exact (buildEventLines_count ap.2 dp.2 trip.city (formatICSDate now) _).2
    have hpre : ∀ u ∈ ["BEGIN:VCALENDAR", "VERSION:2.0",
        "PRODID:-//WanderGenie//Trip Export//EN", "CALSCALE:GREGORIAN"], (u == t) = false := by
      intro u hu
      rcases ht with h | h <;> rw [h] <;> fin_cases hu <;> decide
    have hlast : ("END:VCALENDAR" == t) = false := by
      rcases ht with h | h <;> rw [h] <;> decide
    simp only [icsLines, List.count_append]
    rw [show (["BEGIN:VCALENDAR", "VERSION:2.0",
        "PRODID:-//WanderGenie//Trip Export//EN", "CALSCALE:GREGORIAN"] : List String).count t
        = 0 from by
      rw [List.count_eq_zero]
      intro hmem
      have := hpre t hmem
      simp at this]
    rw [show ([("END:VCALENDAR" : String)]).count t = 0 from by
      rw [List.count_eq_zero]
      intro hmem
      rw [List.mem_singleton] at hmem
      rw [hmem] at hlast
      simp at hlast]
    rw [count_flatMap]
    have hinner : ∀ dp : Nat × TripDay,
        ((dp.2.activities.enum.flatMap (fun actPair =>
          buildEventLines actPair.2 dp.2 trip.city (formatICSDate now)
            (dp.1 * 100 + actPair.1))).count t) = dp.2.activities.length := by
      intro dp
      rw [count_flatMap]
      rw [List.map_congr_left (fun ap _ => hone dp ap)]
      simp [List.map_const', List.sum_replicate, List.enum_length]
    rw [List.map_congr_left (fun dp _ => hinner dp)]
    rw [show (fun dp : Nat × TripDay => dp.2.activities.length) =
        ((fun d : TripDay => d.activities.length) ∘ Prod.snd) from rfl,
      ← List.map_map, List.enum_map_snd]
    simp [totalActivities]
  exact ⟨key _ (Or.inl rfl), key _ (Or.inr rfl)⟩

/-- The four chained single-character replacements of `sanitize` equal one
per-character escaping pass. -/
theorem sanitize_chain_eq (l : List Char) :
    replaceAllChar '\n' ['\\', 'n']
      (replaceAllChar ';' ['\\', ';']
        (replaceAllChar ',' ['\\', ',']
          (replaceAllChar '\\' ['\\', '\\'] l))) = l.flatMap escapeICSChar := by
  induction l with
  | nil => rfl
  | cons c cs ih =>
    have happ : ∀ (t : Char) (r : List Char) (l₁ l₂ : List Char),
        replaceAllChar t r (l₁ ++ l₂) =
          replaceAllChar t r l₁ ++ replaceAllChar t r l₂ := by
      intro t r l₁ l₂; simp [replaceAllChar]
    rw [show (c :: cs) = [c] ++ cs from rfl]
    simp only [happ]
    rw [ih, List.flatMap_append]
    congr 1
    by_cases h1 : c = '\\'
    · subst h1; decide
    · by_cases h2 : c = ','
      · subst h2; decide
      · by_cases h3 : c = ';'
        · subst h3; decide
        · by_cases h4 : c = '\n'
          · subst h4; decide
          · simp [replaceAllChar, escapeICSChar, h1, h2, h3, h4]

/-- `sanitize` escapes every backslash, comma, semicolon and newline of its
argument, character by character. -/
theorem sanitize_data (s : String) :
    (sanitize (some s)).data = s.data.flatMap escapeICSChar := by
  by_cases h : s = ""
  · subst h; rfl
  · simp only [sanitize, if_neg h]
    exact sanitize_chain_eq s.data

end CalendarExport

namespace Engine

/-- Blocks in scheduling order: the later block starts no earlier than the
earlier block's end plus the later's travel buffer. -/
def blockSeq (b₁ b₂ : SBlock) : Prop :=
  b₁.stop + b₂.travel_from_previous ≤ b₂.start

/-- Every block the per-day loop emits starts at or after the cursor it was
emitted at, plus its travel buffer. -/
theorem scheduleDayAux_start_ge (travel : Option SPOI → SPOI → Nat)
    (gap w1 w2 w3 wEnd : Nat) :
    ∀ (budget cursor : Nat) (prev : Option SPOI) (pool : List SPOI),
      ∀ b ∈ scheduleDayAux travel gap w1 w2 w3 wEnd budget cursor prev pool,
        cursor + b.travel_from_previous ≤ b.start := by
  intro budget
  induction budget with
  | zero => intro cursor prev pool b hb; simp [scheduleDayAux] at hb
  | succ n ih =>
    intro cursor prev pool b hb
    simp only [scheduleDayAux] at hb
    split at hb
    · simp at hb
    · rename_i c heq
      simp only [List.mem_cons] at hb
      rcases hb with rfl | hb
      · simp
      · have := ih _ _ _ b hb
        simp only at this
        omega

/-- The per-day loop's output is pairwise ordered with travel buffers. -/
theorem scheduleDayAux_pairwise (travel : Option SPOI → SPOI → Nat)
    (gap w1 w2 w3 wEnd : Nat) :
    ∀ (budget cursor : Nat) (prev : Option SPOI) (pool : List SPOI),
      List.Pairwise blockSeq
        (scheduleDayAux travel gap w1 w2 w3 wEnd budget cursor prev pool) := by
  intro budget
  induction budget with
  | zero => intro cursor prev pool; simp [scheduleDayAux]
  | succ n ih =>
    intro cursor prev pool
    simp only [scheduleDayAux]
    split
    · exact List.Pairwise.nil
    · rename_i c heq
      rw [List.pairwise_cons]
      refine ⟨?_, ih _ _ _⟩
      intro y hy
      have := scheduleDayAux_start_ge travel gap w1 w2 w3 wEnd n _ _ _ y hy
      simp only [blockSeq]
      omega

/-- A pairwise-ordered day has no adjacent overlap. -/
theorem dayOverlaps_eq_false :
    ∀ (l : List SBlock), List.Pairwise blockSeq l → dayOverlaps l = false := by
  intro l
  induction l with
  | nil => intro _; rfl
  | cons b rest ih =>
    intro h
    cases rest with
    | nil => rfl
    | cons b₂ rest₂ =>
      rw [List.pairwise_cons] at h
      have h12 : blockSeq b b₂ := h.1 b₂ (by simp)
      simp only [blockSeq] at h12
      have hnot : ¬ (b₂.start < b.stop + b₂.travel_from_previous) := by omega
      simp [dayOverlaps, ih h.2, hnot]

/-- The sequential multi-day pass appends one pairwise-ordered day per
date. -/
theorem foldl_scheduleStep (travel : Option SPOI → SPOI → Nat)
    (gap w1 w2 w3 : Nat) (c : SConstraints) :
    ∀ (dts : List Nat) (acc : List SDay × List SPOI),
      (dts.foldl (scheduleStep travel gap w1 w2 w3 c) acc).1.length =
        acc.1.length + dts.length ∧
      ∀ day ∈ (dts.foldl (scheduleStep travel gap w1 w2 w3 c) acc).1,
        day ∈ acc.1 ∨ List.Pairwise blockSeq day.blocks := by
  intro dts
  induction dts with
  | nil => intro acc; exact ⟨by simp, fun day h => Or.inl h⟩
  | cons dt dts ih =>
    intro acc
    rw [List.foldl_cons]
    obtain ⟨hlen, hmem⟩ := ih (scheduleStep travel gap w1 w2 w3 c acc dt)
    constructor
    · rw [hlen]
      have hstep : (scheduleStep travel gap w1 w2 w3 c acc dt).1.length =
          acc.1.length + 1 := by
        simp [scheduleStep]
      rw [hstep]
      simp only [List.length_cons]
      omega
    · intro day hday
      rcases hmem day hday with hin | hp
      · simp only [scheduleStep, List.mem_append, List.mem_singleton] at hin
        rcases hin with h | h
        · exact Or.inl h
        · subst h
          exact Or.inr (scheduleDayAux_pairwise travel gap w1 w2 w3
            c.dayWindowEnd c.perDayCap c.dayWindowStart none acc.2)
      · exact Or.inr hp

/-- The raw schedule has one day per calendar day of the range, each day
pairwise ordered. -/
theorem createRaw_inv (travel : Option SPOI → SPOI → Nat)
    (gap w1 w2 w3 : Nat) (c : SConstraints) (pool : List SPOI) :
    (createRaw travel gap w1 w2 w3 c pool).days.length =
      c.endDay - c.startDay + 1 ∧
    ∀ day ∈ (createRaw travel gap w1 w2 w3 c pool).days,
      List.Pairwise blockSeq day.blocks := by
  obtain ⟨hlen, hmem⟩ := foldl_scheduleStep travel gap w1 w2 w3 c
    ((List.range (c.endDay - c.startDay + 1)).map (fun k => c.startDay + k))
    ([], pool)
  constructor
  · simp only [createRaw]
    rw [hlen]
    simp
  · intro day hday
    simp only [createRaw] at hday
    rcases hmem day hday with h | h
    · simp at h
    · exact h

/-- On a trip whose days are pairwise ordered the validator detects no
overlap violation. -/
theorem violations_no_overlap (cap : Nat) (t : STrip)
    (h : ∀ day ∈ t.days, List.Pairwise blockSeq day.blocks) :
    ∀ v ∈ violations cap t, ∀ di, v ≠ Violation.overlap di := by
  intro v hv di
  simp only [violations, List.mem_append] at hv
  rcases hv with ((hv | hv) | hv) | hv
  · rw [List.mem_filterMap] at hv
    obtain ⟨dp, hdp, heq⟩ := hv
    rw [dayOverlaps_eq_false dp.2.blocks (h dp.2 (snd_mem_of_mem_enum hdp))] at heq
    simp at heq
  · rw [List.mem_filterMap] at hv
    obtain ⟨dp, _, heq⟩ := hv
    split at heq
    · cases Option.some.inj heq; simp
    · exact Option.noConfusion heq
  · rw [List.mem_flatMap] at hv
    obtain ⟨dp, _, hv⟩ := hv
    rw [List.mem_filterMap] at hv
    obtain ⟨bp, _, heq⟩ := hv
    split at heq
    · exact Option.noConfusion heq
    · cases Option.some.inj heq; simp
  · rw [List.mem_map] at hv
    obtain ⟨id, _, heq⟩ := hv
    rw [← heq]
    simp

/-- The structural invariant the claims track through the validator: a
fixed day count and pairwise-ordered blocks within every day. -/
def TripInv (n : Nat) (t : STrip) : Prop :=
  t.days.length = n ∧ ∀ day ∈ t.days, List.Pairwise blockSeq day.blocks

/-- Dropping least-popular blocks is a sublist operation. -/
theorem dropLeast_sublist : ∀ (n : Nat) (bs : List SBlock),
    (dropLeast n bs).Sublist bs := by
  intro n
  induction n with
  | zero => intro bs; simp [dropLeast]
  | succ k ih =>
    intro bs
    exact (ih _).trans (List.eraseIdx_sublist bs (leastPopularIdx bs))

/-- Keeping only the first occurrence of an id is a sublist operation. -/
theorem keepFirstInDay_sublist (id : Nat) : ∀ (bs : List SBlock),
    (keepFirstInDay id bs).Sublist bs := by
  intro bs
  induction bs with
  | nil => simp [keepFirstInDay]
  | cons b rest ih =>
    simp only [keepFirstInDay]
    split
    · exact List.Sublist.cons₂ b (List.filter_sublist rest)
    · exact List.Sublist.cons₂ b ih

/-- `mapDayAt` keeps the day count. -/
theorem mapDayAt_length (di : Nat) (f : SDay → SDay) (days : List SDay) :
    (mapDayAt di f days).length = days.length := by
  simp [mapDayAt, List.enum_length]

/-- A day of `mapDayAt` is an original day or the image of one. -/
theorem mem_mapDayAt (di : Nat) (f : SDay → SDay) (days : List SDay)
    (day : SDay) (h : day ∈ mapDayAt di f days) :
    day ∈ days ∨ ∃ d ∈ days, day = f d := by
  simp only [mapDayAt, List.mem_map] at h
  obtain ⟨dp, hdp, heq⟩ := h
  by_cases hdi : dp.1 = di
  · right
    refine ⟨dp.2, snd_mem_of_mem_enum hdp, ?_⟩
    rw [← heq, if_pos hdi]
  · left
    rw [← heq, if_neg hdi]
    exact snd_mem_of_mem_enum hdp

/-- `dropLaterDup` keeps the day count. -/
theorem dropLaterDup_length (id : Nat) : ∀ (days : List SDay),
    (dropLaterDup id days).length = days.length := by
  intro days
  induction days with
  | nil => rfl
  | cons d rest ih =>
    simp only [dropLaterDup]
    split
    · simp
    · simp [ih]

/-- Every day of `dropLaterDup` has blocks that are a sublist of some
original day's blocks. -/
theorem mem_dropLaterDup (id : Nat) : ∀ (days : List SDay) (day : SDay),
    day ∈ dropLaterDup id days → ∃ d ∈ days, day.blocks.Sublist d.blocks := by
  intro days
  induction days with
  | nil => intro day h; simp [dropLaterDup] at h
  | cons d rest ih =>
    intro day h
    simp only [dropLaterDup] at h
    split at h
    · rcases List.mem_cons.mp h with rfl | hmem
      · exact ⟨d, by simp, keepFirstInDay_sublist id d.blocks⟩
      · rw [List.mem_map] at hmem
        obtain ⟨d', hd', heq⟩ := hmem
        exact ⟨d', by simp [hd'], by rw [← heq]; exact List.filter_sublist _⟩
    · rcases List.mem_cons.mp h with rfl | hmem
      · exact ⟨day, by simp, List.Sublist.refl _⟩
      · obtain ⟨d', hd', hsub⟩ := ih day hmem
        exact ⟨d', by simp [hd'], hsub⟩

/-- Every applicable patch other than the overlap shift keeps the day count
and the pairwise ordering of every day. -/
theorem patchOne_inv (cap n : Nat) (t t' : STrip) (v : Violation)
    (hno : ∀ di, v ≠ Violation.overlap di)
    (hp : patchOne cap t v = some t') (hI : TripInv n t) : TripInv n t' := by
  cases v with
  | overlap di => exact absurd rfl (hno di)
  | capExceeded di =>
    simp only [patchOne, Option.some.injEq] at hp
    subst hp
    refine ⟨by simp [mapDayAt_length, hI.1], ?_⟩
    intro day hday
    have hday' : day ∈ mapDayAt di
        (fun d => { d with blocks := dropLeast (d.blocks.length - cap) d.blocks })
        t.days := hday
    rcases mem_mapDayAt _ _ _ _ hday' with h | ⟨d, hd, rfl⟩
    · exact hI.2 day h
    · exact List.Pairwise.sublist (dropLeast_sublist _ _) (hI.2 d hd)
  | hoursViolation di bi => simp [patchOne] at hp
  | duplicatePOI id =>
    simp only [patchOne, Option.some.injEq] at hp
    subst hp
    refine ⟨by simp [dropLaterDup_length, hI.1], ?_⟩
    intro day hday
    have hday' : day ∈ dropLaterDup id t.days := hday
    obtain ⟨d, hd, hsub⟩ := mem_dropLaterDup _ _ day hday'
    exact List.Pairwise.sublist hsub (hI.2 d hd)

/-- The validator fold keeps the invariant when no overlap violation is in
its worklist. -/
theorem foldl_patchStep_inv (cap n : Nat) :
    ∀ (vs : List Violation) (acc : STrip × List Violation × List Violation),
      TripInv n acc.1 → (∀ v ∈ vs, ∀ di, v ≠ Violation.overlap di) →
      TripInv n (vs.foldl (patchStep cap) acc).1 := by
  intro vs
  induction vs with
  | nil => intro acc h _; exact h
  | cons v vs ih =>
    intro acc hacc hno
    rw [List.foldl_cons]
    apply ih
    · simp only [patchStep]
      cases hp : patchOne cap acc.1 v with
      | none => exact hacc
      | some t' =>
        exact patchOne_inv cap n acc.1 t' v (fun di => hno v (by simp) di) hp hacc
    · intro u hu di
      exact hno u (by simp [hu]) di

/-- The whole validator keeps the invariant on trips whose days are already
pairwise ordered. -/
theorem runValidator_inv (cap n : Nat) (t : STrip) (hI : TripInv n t) :
    TripInv n (runValidator cap t).1 := by
  have hno := violations_no_overlap cap t hI.2
  have hfold := foldl_patchStep_inv cap n (violations cap t) (t, [], []) hI hno
  simp only [runValidator]
  exact ⟨hfold.1, hfold.2⟩

end Engine

namespace Api

/-- `pollCallsAux` never exceeds the remaining iteration count. -/
theorem pollCallsAux_le (getTrips : Nat → Except String TripResponse) :
    ∀ fuel attempt, pollCallsAux getTrips attempt fuel ≤ fuel := by
  intro fuel
  induction fuel with
  | zero => intro attempt; simp [pollCallsAux]
  | succ n ih =>
    intro attempt
    cases hg : getTrips attempt with
    | error e => simp only [pollCallsAux, hg]; omega
    | ok trip =>
      by_cases h1 : trip.status = "completed"
      · simp only [pollCallsAux, hg, show (trip.status == "completed") = true by simp [h1],
          if_true]
        omega
      · by_cases h2 : trip.status = "failed"
        · simp only [pollCallsAux, hg, show (trip.status == "completed") = false by simp [h1],
            show (trip.status == "failed") = true by simp [h2], Bool.false_eq_true,
            if_false, if_true]
          omega
        · have := ih (attempt + 1)
          simp only [pollCallsAux, hg, show (trip.status == "completed") = false by simp [h1],
            show (trip.status == "failed") = false by simp [h2], Bool.false_eq_true, if_false]
          omega

/-- A poll loop that returns a trip returns the first polled trip whose
status is `completed`, every earlier poll having produced a trip that was
neither `completed` nor `failed`. -/
theorem pollAux_ok (getTrips : Nat → Except String TripResponse) :
    ∀ fuel attempt t, pollAux getTrips attempt fuel = Except.ok t →
      t.status = "completed" ∧
      ∃ k, k < fuel ∧ getTrips (attempt + k) = Except.ok t ∧
        ∀ j, j < k → ∃ u, getTrips (attempt + j) = Except.ok u ∧
          u.status ≠ "completed" ∧ u.status ≠ "failed" := by
  intro fuel
  induction fuel with
  | zero => intro attempt t h; simp [pollAux] at h
  | succ n ih =>
    intro attempt t h
    simp only [pollAux] at h
    cases hg : getTrips attempt with
    | error e => rw [hg] at h; exact absurd h (by simp)
    | ok trip =>
      rw [hg] at h
      by_cases h1 : trip.status = "completed"
      · simp only [h1, beq_self_eq_true, if_true] at h
        cases h
        refine ⟨h1, 0, by omega, by simpa using hg, ?_⟩
        intro j hj; omega
      · by_cases h2 : trip.status = "failed"
        · simp only [show (trip.status == "completed") = false by simp [h1],
            show (trip.status == "failed") = true by simp [h2]] at h
          exact absurd h (by simp)
        · simp only [show (trip.status == "completed") = false by simp [h1],
            show (trip.status == "failed") = false by simp [h2],
            Bool.false_eq_true, if_false] at h
          obtain ⟨hst, k, hk, hgk, hprev⟩ := ih (attempt + 1) t h
          refine ⟨hst, k + 1, by omega, by simpa [Nat.add_assoc, Nat.add_comm 1 k] using hgk, ?_⟩
          intro j hj
          cases j with
          | zero => exact ⟨trip, by simpa using hg, h1, h2⟩
          | succ j' =>
            obtain ⟨u, hu, hu1, hu2⟩ := hprev j' (by omega)
            exact ⟨u, by simpa [Nat.add_assoc, Nat.add_comm 1 j'] using hu, hu1, hu2⟩

/-- If every poll within the budget produces a trip that is neither
`completed` nor `failed`, the loop times out. -/
theorem pollAux_timeout (getTrips : Nat → Except String TripResponse) :
    ∀ fuel attempt,
      (∀ k, k < fuel → ∃ u, getTrips (attempt + k) = Except.ok u ∧
        u.status ≠ "completed" ∧ u.status ≠ "failed") →
      pollAux getTrips attempt fuel = Except.error "Trip generation timed out" := by
  intro fuel
  induction fuel with
  | zero => intro attempt _; simp [pollAux]
  | succ n ih =>
    intro attempt h
    obtain ⟨u, hu, hu1, hu2⟩ := h 0 (by omega)
    simp only [pollAux, Nat.add_zero] at hu ⊢
    rw [hu]
    simp only [show (u.status == "completed") = false by simp [hu1],
      show (u.status == "failed") = false by simp [hu2],
      Bool.false_eq_true, if_false]
    apply ih
    intro k hk
    obtain ⟨v, hv, hv1, hv2⟩ := h (k + 1) (by omega)
    exact ⟨v, by simpa [Nat.add_assoc, Nat.add_comm 1 k] using hv, hv1, hv2⟩

/-- The first polled trip with a decisive status being `failed` makes the
loop throw the message built from that trip's `errors`. -/
theorem pollAux_failed (getTrips : Nat → Except String TripResponse) :
    ∀ fuel i attempt t, i < fuel →
      getTrips (attempt + i) = Except.ok t → t.status = "failed" →
      (∀ j, j < i → ∃ u, getTrips (attempt + j) = Except.ok u ∧
        u.status ≠ "completed" ∧ u.status ≠ "failed") →
      pollAux getTrips attempt fuel = Except.error (failedMessage t.errors) := by
  intro fuel
  induction fuel with
  | zero => intro i attempt t hi; omega
  | succ n ih =>
    intro i attempt t hi hg hf hprev
    cases i with
    | zero =>
      simp only [Nat.add_zero] at hg
      simp only [pollAux, hg,
        show (t.status == "completed") = false by simp [hf],
        show (t.status == "failed") = true by simp [hf]]
      simp
    | succ i' =>
      obtain ⟨u, hu, hu1, hu2⟩ := hprev 0 (by omega)
      simp only [Nat.add_zero] at hu
      simp only [pollAux, hu,
        show (u.status == "completed") = false by simp [hu1],
        show (u.status == "failed") = false by simp [hu2],
        Bool.false_eq_true, if_false]
      apply ih i' (attempt + 1) t (by omega)
        (by simpa [Nat.add_assoc, Nat.add_comm 1 i'] using hg) hf
      intro j hj
      obtain ⟨v, hv, hv1, hv2⟩ := hprev (j + 1) (by omega)
      exact ⟨v, by simpa [Nat.add_assoc, Nat.add_comm 1 j] using hv, hv1, hv2⟩

end Api

/-! ## Claim theorems -/

open Api TripConverter UseTrip

/-- C1: the trip-creation flow delivers to the caller (the value
`pollTripUntilComplete` resolves with) only trips whose status is
`completed` — in particular it lies in `{completed, failed}` and never any
other value — and that trip is a server-sent `TripResponse` (which carries
the optional `errors` validation-error array); `createTrip` itself resolves
with exactly the body, hence the status string, the server sent. -/
theorem trip_creation_delivers_completed_status
    (getTrips : Nat → Except String TripResponse) (maxAttempts : Nat) :
    (∀ t, pollTripUntilComplete getTrips maxAttempts = Except.ok t →
      t.status = "completed" ∧ (t.status = "completed" ∨ t.status = "failed") ∧
      ∃ i, i < maxAttempts ∧ getTrips i = Except.ok t) ∧
    (∀ resp : HttpResponse CreateTripBody, resp.ok = true →
      createTrip resp = Except.ok resp.body) := by
  constructor
  · intro t h
    obtain ⟨hst, k, hk, hgk, _⟩ := pollAux_ok getTrips maxAttempts 0 t h
    exact ⟨hst, Or.inl hst, k, hk, by simpa using hgk⟩
  · intro resp hok
    simp [createTrip, hok]

/-- C3: `pollTripUntilComplete` terminates on every response sequence: it
issues at most `maxAttempts` `getTrip` calls; a returned trip is the first
polled trip with status `completed`; the first polled trip with status
`failed` makes it throw the message built from that trip's `errors`; and
when no poll inside the budget is decisive it throws
`Trip generation timed out`. -/
theorem pollTripUntilComplete_terminates
    (getTrips : Nat → Except String TripResponse) (maxAttempts : Nat) :
    pollCalls getTrips maxAttempts ≤ maxAttempts ∧
    (∀ t, pollTripUntilComplete getTrips maxAttempts = Except.ok t →
      t.status = "completed" ∧
      ∃ i, i < maxAttempts ∧ getTrips i = Except.ok t ∧
        ∀ j, j < i → ∃ u, getTrips j = Except.ok u ∧
          u.status ≠ "completed" ∧ u.status ≠ "failed") ∧
    (∀ i t, i < maxAttempts → getTrips i = Except.ok t → t.status = "failed" →
      (∀ j, j < i → ∃ u, getTrips j = Except.ok u ∧
        u.status ≠ "completed" ∧ u.status ≠ "failed") →
      pollTripUntilComplete getTrips maxAttempts =
        Except.error (failedMessage t.errors)) ∧
    ((∀ i, i < maxAttempts → ∃ u, getTrips i = Except.ok u ∧
        u.status ≠ "completed" ∧ u.status ≠ "failed") →
      pollTripUntilComplete getTrips maxAttempts =
        Except.error "Trip generation timed out") := by
  refine ⟨pollCallsAux_le getTrips maxAttempts 0, ?_, ?_, ?_⟩
  · intro t h
    obtain ⟨hst, k, hk, hgk, hprev⟩ := pollAux_ok getTrips maxAttempts 0 t h
    exact ⟨hst, k, hk, by simpa using hgk, fun j hj => by simpa using hprev j hj⟩
  · intro i t hi hg hf hprev
    exact pollAux_failed getTrips maxAttempts i 0 t hi (by simpa using hg) hf
      (fun j hj => by simpa using hprev j hj)
  · intro h
    exact pollAux_timeout getTrips maxAttempts 0 (fun k hk => by simpa using h k hk)

/-- C8: `editTrip` throws `Trip is still being generated. Please wait.`
exactly when the server responds 409, and it never resolves with a trip on
any non-ok response. -/
theorem editTrip_busy_on_409
    (resp : HttpResponse TripResponse) :
    (editTrip resp = Except.error "Trip is still being generated. Please wait." ↔
      resp.status = 409) ∧
    (resp.ok = false → ∀ t, editTrip resp ≠ Except.ok t) := by
  have hgen : ∀ s : String, "Failed to edit trip: " ++ s ≠
      "Trip is still being generated. Please wait." :=
    fun s => String.append_ne_of_head_ne "Failed to edit trip: "
      "Trip is still being generated. Please wait." s 'F' 'T' rfl rfl (by decide)
  constructor
  · constructor
    · intro h
      by_cases hok : resp.ok
      · simp [editTrip, hok] at h
      · by_cases h404 : resp.status = 404
        · simp [editTrip, hok, h404] at h
        · by_cases h409 : resp.status = 409
          · exact h409
          · simp only [editTrip, hok, Bool.false_eq_true, if_false,
              show (resp.status == 404) = false by simp [h404],
              show (resp.status == 409) = false by simp [h409]] at h
            exact absurd (Except.error.inj h) (hgen resp.statusText)
    · intro h409
      have hok : resp.ok = false := by
        simp only [HttpResponse.ok, h409]
        decide
      simp [editTrip, hok, h409]
  · intro hok t
    by_cases h404 : resp.status = 404
    · simp [editTrip, hok, h404]
    · by_cases h409 : resp.status = 409
      · simp [editTrip, hok, h404, h409]
      · simp [editTrip, hok, h404, h409]

/-- C2: a failed edit never installs a partial result. When `editTrip`
throws, or when it returns a `processing` trip and the follow-up polling
throws, `modifyTrip`'s final state keeps the prior trip untouched and
differs from the initial state only in `error`, `progress` and the cleared
`isLoading` flag; and whenever the trip field does change, a successfully
returned backend trip was installed. -/
theorem modifyTrip_no_partial_application
    (s : TripUIState) (editResult pollResult : Except String TripResponse) :
    (∀ e, editResult = Except.error e → s.trip ≠ none →
      modifyTrip s editResult pollResult =
        { s with isLoading := false, error := some e, progress := none }) ∧
    (∀ bt e, editResult = Except.ok bt → bt.status = "processing" →
      pollResult = Except.error e → s.trip ≠ none →
      modifyTrip s editResult pollResult =
        { s with isLoading := false, error := some e, progress := none }) ∧
    ((modifyTrip s editResult pollResult).trip ≠ s.trip →
      ∃ bt, (editResult = Except.ok bt ∨ pollResult = Except.ok bt) ∧
        (modifyTrip s editResult pollResult).trip =
          some (convertBackendTripToFrontend bt)) := by
  refine ⟨?_, ?_, ?_⟩
  · intro e he hsome
    obtain ⟨ft, hft⟩ := Option.ne_none_iff_exists'.mp hsome
    simp [modifyTrip, hft, he]
  · intro bt e hok hproc hpoll hsome
    obtain ⟨ft, hft⟩ := Option.ne_none_iff_exists'.mp hsome
    simp [modifyTrip, hft, hok, hproc, hpoll]
  · intro hchange
    cases hft : s.trip with
    | none => simp [modifyTrip, hft] at hchange
    | some ft =>
      cases he : editResult with
      | error e => simp [modifyTrip, hft, he] at hchange
      | ok bt =>
        by_cases hproc : bt.status = "processing"
        · cases hp : pollResult with
          | error e => simp [modifyTrip, hft, he, hproc, hp] at hchange
          | ok ct =>
            refine ⟨ct, Or.inr rfl, ?_⟩
            simp [modifyTrip, hft, he, hproc, hp]
        · refine ⟨bt, Or.inl rfl, ?_⟩
          simp [modifyTrip, hft, he, hproc]

/-- C7: an empty or missing day never aborts the conversion of a trip.
`convertDay` always preserves the date and yields the converted blocks when
blocks are present, the existing activities when those are present, and the
empty list otherwise; `convertBackendTripToFrontend` yields an empty day
list when the backend `days` is not an array. Both are total functions of
the embedding, so no input makes them throw. -/
theorem convertDay_never_aborts (d : Day) (t : TripResponse) :
    (convertDay d).date = d.date ∧
    (∀ bs, d.blocks = some bs →
      (convertDay d).activities = bs.map convertTimeBlockToActivity) ∧
    (d.blocks = none → ∀ as, d.activities = some as →
      (convertDay d).activities = as) ∧
    (d.blocks = none → d.activities = none → (convertDay d).activities = []) ∧
    (t.days = none → (convertBackendTripToFrontend t).days = []) := by
  refine ⟨?_, ?_, ?_, ?_, ?_⟩
  · cases hb : d.blocks with
    | some bs => simp [convertDay, hb]
    | none =>
      cases ha : d.activities with
      | some as => simp [convertDay, hb, ha]
      | none => simp [convertDay, hb, ha]
  · intro bs hb; simp [convertDay, hb]
  · intro hb as ha; simp [convertDay, hb, ha]
  · intro hb ha; simp [convertDay, hb, ha]
  · intro hd; simp [convertBackendTripToFrontend, hd]

/-- C10: `buildHotelsLink` returns `booking_links.hotels` verbatim whenever
it is defined, and otherwise the generated booking.com search URL; the
generated parameters' `checkin` is the formatted trip start date and
`checkout` the formatted end date, and when `end_date` is absent
`getEndDate` falls back to the start date, making checkout equal checkin. -/
theorem buildHotelsLink_fallbacks (trip : CalendarExport.Trip) :
    (∀ bl h, trip.booking_links = some bl → bl.hotels = some h →
      (TravelLinks.buildHotelsLink trip).url = h) ∧
    (trip.booking_links.bind CalendarExport.BookingLinksOpt.hotels = none →
      (TravelLinks.buildHotelsLink trip).url = TravelLinks.generatedHotelsUrl trip) ∧
    ("checkin", TravelLinks.formatIsoDate (TravelLinks.getStartDate trip)) ∈
      TravelLinks.hotelsParams trip ∧
    ("checkout", TravelLinks.formatIsoDate (TravelLinks.getEndDate trip)) ∈
      TravelLinks.hotelsParams trip ∧
    (trip.end_date = none → TravelLinks.getEndDate trip = TravelLinks.getStartDate trip) := by
  refine ⟨?_, ?_, ?_, ?_, ?_⟩
  · intro bl h hbl hh
    simp [TravelLinks.buildHotelsLink, hbl, hh]
  · intro hnone
    cases hbl : trip.booking_links with
    | none => simp [TravelLinks.buildHotelsLink, hbl]
    | some bl =>
      cases hh : bl.hotels with
      | none => simp [TravelLinks.buildHotelsLink, hbl, hh]
      | some h => rw [hbl] at hnone; simp [hh] at hnone
  · simp only [TravelLinks.hotelsParams]
    cases hanchor : TravelLinks.getPrimaryPOI trip with
    | none => simp
    | some a =>
      by_cases hcoord : (TravelLinks.jsNumTruthy a.lat && TravelLinks.jsNumTruthy a.lon) = true
      · simp [hcoord]
      · simp [hcoord]
  · simp only [TravelLinks.hotelsParams]
    cases hanchor : TravelLinks.getPrimaryPOI trip with
    | none => simp
    | some a =>
      by_cases hcoord : (TravelLinks.jsNumTruthy a.lat && TravelLinks.jsNumTruthy a.lon) = true
      · simp [hcoord]
      · simp [hcoord]
  · intro hend
    simp [TravelLinks.getEndDate, TravelLinks.getStartDate, hend]

open CalendarExport in
/-- C9: `generateICS` emits its line list joined by newlines, with exactly
one `VEVENT` (one `BEGIN:VEVENT` and one `END:VEVENT` line) per activity in
day order then activity order; within each event the `DTSTART`/`DTEND`
lines carry the event start and the start shifted by `duration_min`
(default 90) minutes; and `sanitize`, which produces the `SUMMARY`,
`LOCATION` and `DESCRIPTION` text, escapes every backslash, comma,
semicolon and newline. -/
theorem generateICS_one_vevent_per_activity (now : JSDate) (trip : CalendarExport.Trip) :
    generateICS now trip = String.intercalate "\n" (icsLines now trip) ∧
    (icsLines now trip).count "BEGIN:VEVENT" = totalActivities trip ∧
    (icsLines now trip).count "END:VEVENT" = totalActivities trip ∧
    (∀ (a : TripActivity) (d : TripDay) (city stamp : String) (i : Nat),
      ("DTSTART:" ++ formatICSDate (eventStart a d)) ∈ buildEventLines a d city stamp i ∧
      ("DTEND:" ++ formatICSDate (eventEnd a d)) ∈ buildEventLines a d city stamp i ∧
      ("SUMMARY:" ++ sanitize (some a.name)) ∈ buildEventLines a d city stamp i ∧
      eventEnd a d = (eventStart a d).map
        (· + (a.duration_min.getD DEFAULT_DURATION_MIN) * 60 * 1000)) ∧
    (∀ s : String, (sanitize (some s)).data = s.data.flatMap escapeICSChar) := by
  refine ⟨generateICS_eq_intercalate now trip, (icsLines_count now trip).1,
    (icsLines_count now trip).2, ?_, sanitize_data⟩
  intro a d city stamp i
  refine ⟨?_, ?_, ?_, rfl⟩ <;> simp [buildEventLines]

/-- C4 (spec-modelled): within every day of a Trip produced by the engine's
create pipeline — in particular every completed Trip — consecutive time
blocks satisfy `start[i+1] ≥ end[i] + travel[i+1]`: they are strictly
time-ordered and non-overlapping including the travel buffer. -/
theorem create_completed_days_nonoverlap
    (travel : Option Engine.SPOI → Engine.SPOI → Nat) (gap w1 w2 w3 : Nat)
    (c : Engine.SConstraints) (pool : List Engine.SPOI) :
    ∀ day ∈ (Engine.create travel gap w1 w2 w3 c pool).days,
      ∀ (i : Nat) (h : i + 1 < day.blocks.length),
        (day.blocks.get ⟨i, by omega⟩).stop +
          (day.blocks.get ⟨i + 1, h⟩).travel_from_previous ≤
          (day.blocks.get ⟨i + 1, h⟩).start := by
  intro day hday i h
  have hraw := Engine.createRaw_inv travel gap w1 w2 w3 c pool
  have hinv := Engine.runValidator_inv c.perDayCap (c.endDay - c.startDay + 1)
    (Engine.createRaw travel gap w1 w2 w3 c pool) ⟨hraw.1, hraw.2⟩
  have hpw : List.Pairwise Engine.blockSeq day.blocks := hinv.2 day hday
  exact List.pairwise_iff_get.mp hpw ⟨i, by omega⟩ ⟨i + 1, h⟩
    (by simp [Fin.mk_lt_mk])

/-- Witness for C4: the concrete two-block day the engine schedules from
`poolW` satisfies the non-overlap inequality at its first adjacent pair. -/
theorem create_days_nonoverlap_witness :
    (Engine.dayW.blocks.get ⟨0, by decide⟩).stop +
      (Engine.dayW.blocks.get ⟨1, by decide⟩).travel_from_previous ≤
      (Engine.dayW.blocks.get ⟨1, by decide⟩).start :=
  create_completed_days_nonoverlap Engine.travelW 15 1 1 1 Engine.cW Engine.poolW
    Engine.dayW (by decide) 0 (by decide)

/-- C5 (spec-modelled): a Trip produced by the engine's create pipeline has
one Day per calendar day of the constraint range:
`len(days) = end_date − start_date + 1`. -/
theorem create_days_length_eq_span
    (travel : Option Engine.SPOI → Engine.SPOI → Nat) (gap w1 w2 w3 : Nat)
    (c : Engine.SConstraints) (pool : List Engine.SPOI)
    (h : c.startDay ≤ c.endDay) :
    (Engine.create travel gap w1 w2 w3 c pool).days.length =
      c.endDay - c.startDay + 1 := by
  have hraw := Engine.createRaw_inv travel gap w1 w2 w3 c pool
  exact (Engine.runValidator_inv c.perDayCap (c.endDay - c.startDay + 1)
    (Engine.createRaw travel gap w1 w2 w3 c pool) ⟨hraw.1, hraw.2⟩).1

/-- Witness for C5: the one-day concrete constraints yield exactly one day. -/
theorem create_days_length_witness :
    (Engine.create Engine.travelW 15 1 1 1 Engine.cW Engine.poolW).days.length =
      Engine.cW.endDay - Engine.cW.startDay + 1 :=
  create_days_length_eq_span Engine.travelW 15 1 1 1 Engine.cW Engine.poolW
    (by decide)

/-- C6 (spec-modelled): on a Trip that is already valid — reported
`completed` with zero detected structural violations — the Validator &
Auto-Patcher performs zero patches and returns the Trip unchanged, so a
second validation run is the identity. -/
theorem validator_idempotent_on_valid (cap : Nat) (t : Engine.STrip)
    (hs : t.status = "completed") (hv : Engine.violations cap t = []) :
    Engine.runValidator cap t = (t, []) := by
  simp only [Engine.runValidator, hv, List.foldl_nil]
  cases t
  simp_all

/-- Witness for C6: a concrete valid completed trip passes through the
validator unchanged with zero patches. -/
theorem validator_idempotent_witness :
    Engine.runValidator 2 Engine.tripValidW = (Engine.tripValidW, []) :=
  validator_idempotent_on_valid 2 Engine.tripValidW rfl (by decide)

end WanderGenie
